import Mathlib

/-!
Verification development for the basset-hound-browser command/response
correlation core.

The Python sources embedded here:
- clients/python/basset_hound/client.py : class BassetHoundClient
  (threaded WebSocket client; the pending map _pending_responses keyed by
  a uuid4 string, futures from concurrent.futures).
- clients/python/basset_hound/exceptions.py : exception hierarchy.
- mcp/server.py : class BrowserConnection (asyncio variant with a
  monotone integer command id and a lock serialising send+recv).

Machine-level conventions of the embedding:
- JSON values are the inductive `Json`; Python dict lookups that raise
  AttributeError on non-dicts are modelled by `pyGet` returning an
  exception; Python truthiness is `Json.truthy`.
- The futures created by send_command live in a heap `futStore : Nat →
  FutState`; the dict `_pending_responses` is an association list from
  the request-id string to the future's heap index.
- External events (the uuid drawn by uuid.uuid4(), whether the wait on a
  future timed out, what the asyncio recv returned) are explicit inputs.
- Every mutation of the pending map is recorded in a trace of `MutEvent`s
  tagged with whether the client lock `self._lock` was held at that point,
  exactly as in the source (only _on_error takes the lock).
-/

/-- JSON values, as produced by Python's json.loads. -/
inductive Json where
  | null : Json
  | bool (b : Bool) : Json
  | num (n : Int) : Json
  | str (s : String) : Json
  | arr (elems : List Json) : Json
  | obj (fields : List (String × Json)) : Json

/-- Python truthiness of a JSON value (bool(x)). -/
def Json.truthy : Json → Bool
  | .null => false
  | .bool b => b
  | .num n => n != 0
  | .str s => s != ""
  | .arr l => !l.isEmpty
  | .obj l => !l.isEmpty

/-- Lookup of a key in an object's field list; dicts from json.loads have
this shape. Returns the first binding. -/
def objGet (j : Json) (k : String) : Option Json :=
  match j with
  | .obj fields => List.lookup k fields
  | _ => none

/-- Whether the JSON value is an object (a Python dict). -/
def Json.isObj : Json → Bool
  | .obj _ => true
  | _ => false

/-- Python exception classes relevant to the client, with the class
hierarchy of basset_hound/exceptions.py and of the standard library. -/
inductive PyClass where
  | exceptionC
  | bassetHoundErrorC
  | connectionErrorC
  | commandErrorC
  | timeoutErrorC
  | futuresErrorC
  | futuresTimeoutErrorC
  | attributeErrorC
  | valueErrorC
  | jsonDecodeErrorC
  | osErrorC
  | builtinConnectionErrorC
  | asyncioTimeoutErrorC
  | invalidStateErrorC
  deriving DecidableEq, Repr

/-- Direct superclass, from exceptions.py (BassetHoundError(Exception),
ConnectionError/CommandError/TimeoutError(BassetHoundError)) and the
Python standard library (concurrent.futures.TimeoutError is Error <
Exception before 3.11 and the builtin TimeoutError < OSError from 3.11;
under neither reading is it below BassetHoundError, which is all the
development uses). -/
def superClass : PyClass → Option PyClass
  | .exceptionC => none
  | .bassetHoundErrorC => some .exceptionC
  | .connectionErrorC => some .bassetHoundErrorC
  | .commandErrorC => some .bassetHoundErrorC
  | .timeoutErrorC => some .bassetHoundErrorC
  | .futuresErrorC => some .exceptionC
  | .futuresTimeoutErrorC => some .futuresErrorC
  | .attributeErrorC => some .exceptionC
  | .valueErrorC => some .exceptionC
  | .jsonDecodeErrorC => some .valueErrorC
  | .osErrorC => some .exceptionC
  | .builtinConnectionErrorC => some .osErrorC
  | .asyncioTimeoutErrorC => some .osErrorC
  | .invalidStateErrorC => some .exceptionC

/-- Strict ancestors of a class, walked with enough fuel for the finite
hierarchy above. -/
def ancestorsAux : Nat → PyClass → List PyClass
  | 0, _ => []
  | fuel + 1, c =>
    match superClass c with
    | none => []
    | some p => p :: ancestorsAux fuel p

/-- isinstance-style subclass test used for Python except clauses. -/
def isSubclass (a b : PyClass) : Bool :=
  a = b || b ∈ ancestorsAux 8 a

/-- Exception values the embedded code can raise or store in a future. -/
inductive PyExc where
  | bassetConnectionError (msg : String)
  | commandError (msg : Json) (details : Json)
  | bassetTimeoutError (msg : String) (timeout : ℚ)
  | futuresTimeoutError
  | attributeError
  | jsonDecodeError
  | builtinConnectionError (msg : String)
  | asyncioTimeoutError
  | invalidStateError

/-- The Python class of each exception value. -/
def classOf : PyExc → PyClass
  | .bassetConnectionError _ => .connectionErrorC
  | .commandError _ _ => .commandErrorC
  | .bassetTimeoutError _ _ => .timeoutErrorC
  | .futuresTimeoutError => .futuresTimeoutErrorC
  | .attributeError => .attributeErrorC
  | .jsonDecodeError => .jsonDecodeErrorC
  | .builtinConnectionError _ => .builtinConnectionErrorC
  | .asyncioTimeoutError => .asyncioTimeoutErrorC
  | .invalidStateError => .invalidStateErrorC

/-- dict.get on a JSON value: Python raises AttributeError when the value
is not a dict ("json.loads" output that is a list, string, number...). -/
def pyGet (j : Json) (k : String) : Except PyExc (Option Json) :=
  match j with
  | .obj fields => .ok (List.lookup k fields)
  | _ => .error .attributeError

/-- State of a concurrent.futures.Future: pending, resolved with a
payload by set_result, or failed with an exception by set_exception. -/
inductive FutState where
  | pending
  | doneOk (payload : Json)
  | doneErr (e : PyExc)

/-- Whether Future.done() would return True. -/
def FutState.isDone : FutState → Bool
  | .pending => false
  | _ => true

/-- Mutations of the _pending_responses dict, for the locking analysis. -/
inductive MutKind where
  | insert (id : String)
  | popRecv (id : String)
  | popTimeout (id : String)
  | drainClear
  deriving DecidableEq, Repr

/-- One mutation of the pending map together with whether self._lock was
held while it ran. -/
structure MutEvent where
  kind : MutKind
  underLock : Bool
  deriving DecidableEq, Repr

/-- State of a BassetHoundClient instance: the fields of __init__ that
the correlation core reads and writes.  `ws` models whether self._ws is
set, `futStore` is the heap of futures indexed by creation order
(`nextFut` is the next free index), `sent` the envelopes passed to
self._ws.send in order. -/
structure CState where
  connected : Bool
  ws : Bool
  autoReconnect : Bool
  commandTimeout : ℚ
  pendingMap : List (String × Nat)
  futStore : Nat → FutState
  nextFut : Nat
  sent : List Json

/-- Insert or replace a key in an association list, keeping the key's
position like a Python dict assignment d[k] = v. -/
def insertAssoc (k : String) (v : Nat) : List (String × Nat) → List (String × Nat)
  | [] => [(k, v)]
  | (k', v') :: rest =>
    if k' = k then (k', v) :: rest else (k', v') :: insertAssoc k v rest

/-- Remove the first binding of a key, like dict.pop. -/
def eraseAssoc (k : String) : List (String × Nat) → List (String × Nat)
  | [] => []
  | (k', v') :: rest =>
    if k' = k then rest else (k', v') :: eraseAssoc k rest

/-- Merge an object literal with keyword expansion: for Python's
curly-brace dict literal listing base entries and then splatting extra,
later keys override earlier ones in place. -/
def mergeObj (base : List (String × Json)) (extra : List (String × Json)) :
    List (String × Json) :=
  extra.foldl (fun acc kv =>
    if (List.lookup kv.1 acc).isSome then
      acc.map (fun p => if p.1 = kv.1 then (p.1, kv.2) else p)
    else acc ++ [kv]) base

/-- data.get("success", True) under Python truthiness: a missing success
field counts as success. -/
def successFlag (data : Json) : Bool :=
  match objGet data "success" with
  | some v => v.truthy
  | none => true

/-- The CommandError built for an explicit remote failure:
CommandError(data.get("error", "Unknown error"), details=data). -/
def commandFailure (data : Json) : PyExc :=
  .commandError ((objGet data "error").getD (.str "Unknown error")) data

/-- Body of BassetHoundClient._on_message after json.loads succeeded:
reads data.get("id"), and when the id is truthy and present in
_pending_responses, pops the entry and resolves its future according to
data.get("success", True); stale or unknown ids fall through.  The
returned exception is whatever escapes the body (AttributeError when the
frame was not a dict, InvalidStateError from set_result on a done
future); the try block around the body only catches json.JSONDecodeError. -/
def onMessageBody (st : CState) (data : Json) :
    CState × Option PyExc × List MutEvent :=
  match pyGet data "id" with
  | .error e => (st, some e, [])
  | .ok ridOpt =>
    match ridOpt with
    | some (.str rid) =>
      match List.lookup rid st.pendingMap with
      | some fid =>
        if rid = "" then (st, none, [])
        else
          let popped := { st with pendingMap := eraseAssoc rid st.pendingMap }
          match st.futStore fid with
          | .pending =>
            let fs : FutState :=
              if successFlag data then .doneOk data
              else .doneErr (commandFailure data)
            ({ popped with
                futStore := fun n => if n = fid then fs else st.futStore n },
             none, [⟨.popRecv rid, false⟩])
          | _ => (popped, some .invalidStateError, [⟨.popRecv rid, false⟩])
      | none => (st, none, [])
    | _ => (st, none, [])

/-- BassetHoundClient._on_message.  The inbound frame is given as the
outcome of json.loads (error means json.JSONDecodeError was raised);
the except clause catches exactly json.JSONDecodeError, so any other
exception from the body propagates out of the handler. -/
def onMessage (st : CState) (parsed : Except PyExc Json) :
    CState × Option PyExc × List MutEvent :=
  let body :=
    match parsed with
    | .error e => (st, some e, [])
    | .ok data => onMessageBody st data
  match body with
  | (st', some e, tr) =>
    if isSubclass (classOf e) .jsonDecodeErrorC then (st', none, tr)
    else (st', some e, tr)
  | (st', none, tr) => (st', none, tr)

/-- BassetHoundClient._on_error: under self._lock, set a ConnectionError
built from str(error) on every not-yet-done pending future, then clear
the dict. -/
def onError (st : CState) (errText : String) : CState × List MutEvent :=
  ({ st with
      pendingMap := [],
      futStore := fun n =>
        if st.pendingMap.any (fun p => p.2 == n) && !(st.futStore n).isDone
        then .doneErr (.bassetConnectionError errText)
        else st.futStore n },
   [⟨.drainClear, true⟩])

/-- BassetHoundClient.disconnect: close the socket if one was created and
mark the client disconnected; the pending map and futures are untouched. -/
def disconnectC (st : CState) : CState :=
  if st.ws then { st with connected := false } else st

/-- BassetHoundClient._on_close: mark disconnected; with auto_reconnect
enabled, sleep and retry connect, swallowing a ConnectionError (the
reconnect outcome is the external input reconnectOk).  The pending map
and futures are untouched. -/
def onClose (st : CState) (reconnectOk : Bool) : CState :=
  let st1 := { st with connected := false }
  if st1.autoReconnect then
    if reconnectOk then { st1 with connected := true, ws := true } else st1
  else st1

/-- Outcome of the blocking future.result(timeout=...) call: either the
future was resolved before the deadline, or concurrent.futures raised
its TimeoutError. -/
inductive WaitRes where
  | resolved
  | timedOut

/-- First half of BassetHoundClient.send_command, up to and including
self._ws.send: the connected check, the timeout defaulting (Python
`timeout or self.command_timeout`, so an explicit 0 also selects the
default), the envelope built from the dict literal with params splatted
last, the fresh Future, and the dict insertion.  The uuid drawn by
uuid.uuid4() is the input requestId. -/
def sendCommandPre (st : CState) (command : String)
    (params : List (String × Json)) (timeoutArg : Option ℚ)
    (requestId : String) :
    Except PyExc (CState × ℚ) × List MutEvent :=
  if !st.connected then
    (.error (.bassetConnectionError "Not connected to browser"), [])
  else
    let timeout := match timeoutArg with
      | some t => if t = 0 then st.commandTimeout else t
      | none => st.commandTimeout
    let message := mergeObj [("id", .str requestId), ("command", .str command)] params
    let fid := st.nextFut
    (.ok ({ st with
        pendingMap := insertAssoc requestId fid st.pendingMap,
        futStore := fun n => if n = fid then .pending else st.futStore n,
        nextFut := st.nextFut + 1,
        sent := st.sent ++ [.obj message] }, timeout),
     [⟨.insert requestId, false⟩])

/-- Second half of BassetHoundClient.send_command: future.result(timeout)
inside try, with the handler `except TimeoutError` — which, because of
the import from basset_hound.exceptions, refers to the custom
TimeoutError class, so it fires only for exceptions below that class. -/
def sendCommandWait (st : CState) (command : String) (requestId : String)
    (fid : Nat) (timeout : ℚ) (wait : WaitRes) :
    Except PyExc Json × CState × List MutEvent :=
  let bodyRes : Except PyExc Json :=
    match wait with
    | .timedOut => .error .futuresTimeoutError
    | .resolved =>
      match st.futStore fid with
      | .doneOk p => .ok p
      | .doneErr e => .error e
      | .pending => .error .invalidStateError
  match bodyRes with
  | .ok p => (.ok p, st, [])
  | .error e =>
    if isSubclass (classOf e) .timeoutErrorC then
      (.error (.bassetTimeoutError
          ("Command " ++ command ++ " timed out") timeout),
       { st with pendingMap := eraseAssoc requestId st.pendingMap },
       [⟨.popTimeout requestId, false⟩])
    else (.error e, st, [])

/-- The whole send_command as one run: the pre phase followed by the
wait phase on the freshly created future. -/
def sendCommandRun (st : CState) (command : String)
    (params : List (String × Json)) (timeoutArg : Option ℚ)
    (requestId : String) (wait : WaitRes) :
    Except PyExc Json × CState :=
  match (sendCommandPre st command params timeoutArg requestId).1 with
  | .error e => (.error e, st)
  | .ok (st1, tmo) =>
    let r := sendCommandWait st1 command requestId st.nextFut tmo wait
    (r.1, r.2.1)

/-- Deliver a list of already-parsed inbound frames to _on_message in
order, keeping only the state. -/
def processAll (st : CState) (rs : List Json) : CState :=
  rs.foldl (fun s r => (onMessage s (.ok r)).1) st

/-- State of an mcp/server.py BrowserConnection: whether self.ws is set,
the monotone command counter, and the envelopes sent so far. -/
structure McpState where
  ws : Bool
  commandId : Nat
  sentM : List Json

/-- Outcome of the awaited recv under asyncio.wait_for: a frame, or the
30-second default timeout firing. -/
inductive RecvOutcome where
  | frame (resp : Json)
  | timedOut

/-- BrowserConnection.send_command from mcp/server.py: the whole body
runs under self._lock; when self.ws is unset it first calls connect
(raising a builtin ConnectionError when the endpoint is unreachable —
the input connectOk), then increments command_id, sends the envelope
with the counter rendered as a string, and returns whatever the next
recv yields, parsed but not matched against the sent id. -/
def mcpSendCommand (st : McpState) (command : String)
    (params : List (String × Json)) (connectOk : Bool)
    (recv : RecvOutcome) : Except PyExc Json × McpState :=
  let afterConnect : Except PyExc McpState :=
    if st.ws then .ok st
    else if connectOk then .ok { st with ws := true }
    else .error (.builtinConnectionError "Failed to connect to browser")
  match afterConnect with
  | .error e => (.error e, { st with ws := false })
  | .ok st1 =>
    let cid := st1.commandId + 1
    let message :=
      mergeObj [("id", .str (toString cid)), ("command", .str command)] params
    let st2 := { st1 with commandId := cid, sentM := st1.sentM ++ [.obj message] }
    match recv with
    | .frame resp => (.ok resp, st2)
    | .timedOut => (.error .asyncioTimeoutError, st2)

/-- The client state after the first half of send_command, read past the
Except wrapper (the state is unchanged when the connected check raised). -/
def afterPre (st : CState) (command : String) (params : List (String × Json))
    (timeoutArg : Option ℚ) (requestId : String) : CState :=
  match (sendCommandPre st command params timeoutArg requestId).1 with
  | .ok (s, _) => s
  | .error _ => st

/-- A connected client with the default 30s command timeout and no
outstanding requests. -/
def connSt : CState :=
  { connected := true, ws := true, autoReconnect := false, commandTimeout := 30,
    pendingMap := [], futStore := fun _ => .pending, nextFut := 0, sent := [] }

/-- A connected client with one outstanding request id "u" whose future
lives at heap index 0. -/
def pendSt : CState :=
  { connected := true, ws := true, autoReconnect := false, commandTimeout := 30,
    pendingMap := [("u", 0)], futStore := fun _ => .pending, nextFut := 1,
    sent := [] }

/-- The same client before connect established the connection. -/
def discSt : CState := { connSt with connected := false }

/-- The client state after the message handler resolves the pending
entry rid → fid with the frame data: the entry popped and the future
filled according to the success flag. -/
def resolvedState (st : CState) (rid : String) (fid : Nat) (data : Json) :
    CState :=
  { st with
      pendingMap := eraseAssoc rid st.pendingMap,
      futStore := fun n => if n = fid then
          (if successFlag data then .doneOk data
           else .doneErr (commandFailure data))
        else st.futStore n }

/-- A response frame as the engine contract produces it for request rid:
a JSON object whose id field is the request's identifier (a nonempty
uuid string) and whose success field, if present, is truthy. -/
def WellFormedResp (r : Json) (rid : String) : Prop :=
  r.isObj = true ∧ objGet r "id" = some (.str rid) ∧ rid ≠ ""
    ∧ successFlag r = true

/-- Future indices for the two-request example: "a" waits at index 0,
everything else at index 1. -/
def exFut : String → Nat := fun i => if i = "a" then 0 else 1

/-- Minimal matching responses for the two-request example. -/
def exResp : String → Json := fun i => .obj [("id", .str i)]

/-- A client with the two requests "a" and "b" outstanding. -/
def twoPendSt : CState :=
  { connected := true, ws := true, autoReconnect := false, commandTimeout := 30,
    pendingMap := ["a", "b"].map (fun i => (i, exFut i)),
    futStore := fun _ => .pending, nextFut := 2, sent := [] }

/-! Helper lemmas about the association-list model of the dict. -/

theorem lookup_cons_eq {β : Type} (k : String) (v : β) (m : List (String × β)) :
    List.lookup k ((k, v) :: m) = some v := by
  rw [List.lookup_cons, beq_self_eq_true k]

theorem lookup_cons_ne {β : Type} {j k : String} (v : β) (m : List (String × β))
    (h : j ≠ k) : List.lookup j ((k, v) :: m) = List.lookup j m := by
  rw [List.lookup_cons, beq_eq_false_iff_ne.mpr h]

theorem eraseAssoc_sublist (k : String) (m : List (String × Nat)) :
    List.Sublist (eraseAssoc k m) m := by
  induction m with
  | nil => simp [eraseAssoc]
  | cons p rest ih =>
    obtain ⟨k', v'⟩ := p
    by_cases hk : k' = k
    · simp [eraseAssoc, hk]
    · simpa [eraseAssoc, hk] using ih.cons₂ (k', v')

theorem keys_nodup_eraseAssoc {k : String} {m : List (String × Nat)}
    (h : (m.map Prod.fst).Nodup) : ((eraseAssoc k m).map Prod.fst).Nodup :=
  h.sublist ((eraseAssoc_sublist k m).map Prod.fst)

theorem lookup_eraseAssoc_ne {j k : String} {m : List (String × Nat)}
    (h : j ≠ k) : List.lookup j (eraseAssoc k m) = List.lookup j m := by
  induction m with
  | nil => simp [eraseAssoc]
  | cons p rest ih =>
    obtain ⟨k', v'⟩ := p
    by_cases hk : k' = k
    · subst hk
      simp [eraseAssoc, lookup_cons_ne v' rest h]
    · by_cases hj : j = k'
      · subst hj
        simp [eraseAssoc, hk, lookup_cons_eq]
      · simp [eraseAssoc, hk, lookup_cons_ne v' _ hj, ih,
          lookup_cons_ne (m := rest) v' hj]

theorem lookup_eq_none_of_not_mem_keys {β : Type} {k : String}
    {m : List (String × β)} (h : k ∉ m.map Prod.fst) :
    List.lookup k m = none := by
  induction m with
  | nil => simp
  | cons p rest ih =>
    obtain ⟨k', v'⟩ := p
    simp only [List.map_cons, List.mem_cons, not_or] at h
    rw [lookup_cons_ne v' rest h.1]
    exact ih h.2

theorem lookup_eraseAssoc_self {k : String} {m : List (String × Nat)}
    (h : (m.map Prod.fst).Nodup) : List.lookup k (eraseAssoc k m) = none := by
  induction m with
  | nil => simp [eraseAssoc]
  | cons p rest ih =>
    obtain ⟨k', v'⟩ := p
    simp only [List.map_cons, List.nodup_cons] at h
    by_cases hk : k' = k
    · subst hk
      simp only [eraseAssoc, if_pos rfl]
      exact lookup_eq_none_of_not_mem_keys h.1
    · have hne : k ≠ k' := fun hkk => hk hkk.symm
      simp [eraseAssoc, hk, lookup_cons_ne v' _ hne, ih h.2]

theorem mem_keys_insertAssoc {x k : String} {v : Nat} {m : List (String × Nat)}
    (h : x ∈ (insertAssoc k v m).map Prod.fst) :
    x = k ∨ x ∈ m.map Prod.fst := by
  induction m with
  | nil => simpa [insertAssoc] using h
  | cons p rest ih =>
    obtain ⟨k', v'⟩ := p
    by_cases hk : k' = k
    · simp only [insertAssoc, if_pos hk, List.map_cons, List.mem_cons] at h
      rcases h with h | h
      · exact Or.inr (by simp [h])
      · exact Or.inr (by simp [h])
    · simp only [insertAssoc, if_neg hk, List.map_cons, List.mem_cons] at h
      rcases h with h | h
      · exact Or.inr (by simp [h])
      · rcases ih h with h' | h'
        · exact Or.inl h'
        · exact Or.inr (by simp [h'])

theorem keys_nodup_insertAssoc {k : String} {v : Nat} {m : List (String × Nat)}
    (h : (m.map Prod.fst).Nodup) :
    ((insertAssoc k v m).map Prod.fst).Nodup := by
  induction m with
  | nil => simp [insertAssoc]
  | cons p rest ih =>
    obtain ⟨k', v'⟩ := p
    simp only [List.map_cons, List.nodup_cons] at h
    by_cases hk : k' = k
    · simpa [insertAssoc, hk] using h
    · simp only [insertAssoc, if_neg hk, List.map_cons]
      refine List.nodup_cons.mpr ⟨?_, ih h.2⟩
      intro hmem
      rcases mem_keys_insertAssoc hmem with h' | h'
      · exact hk h'
      · exact h.1 h'

theorem lookup_insertAssoc_self {k : String} {v : Nat}
    {m : List (String × Nat)} :
    List.lookup k (insertAssoc k v m) = some v := by
  induction m with
  | nil => simp [insertAssoc, lookup_cons_eq]
  | cons p rest ih =>
    obtain ⟨k', v'⟩ := p
    by_cases hk : k' = k
    · subst hk
      simp [insertAssoc, lookup_cons_eq]
    · have hne : k ≠ k' := fun hkk => hk hkk.symm
      simp [insertAssoc, hk, lookup_cons_ne v' _ hne, ih]

theorem eraseAssoc_of_lookup_none {k : String} {m : List (String × Nat)}
    (h : List.lookup k m = none) : eraseAssoc k m = m := by
  induction m with
  | nil => simp [eraseAssoc]
  | cons p rest ih =>
    obtain ⟨k', v'⟩ := p
    by_cases hk : k = k'
    · subst hk
      rw [lookup_cons_eq] at h
      exact absurd h (by simp)
    · rw [lookup_cons_ne v' rest hk] at h
      have hk' : k' ≠ k := fun hkk => hk hkk.symm
      simp [eraseAssoc, hk', ih h]

theorem lookup_map_pair {j : String} {fut : String → Nat} {ids : List String}
    (h : j ∈ ids) :
    List.lookup j (ids.map (fun i => (i, fut i))) = some (fut j) := by
  induction ids with
  | nil => cases h
  | cons i rest ih =>
    by_cases hj : j = i
    · subst hj
      simp [lookup_cons_eq]
    · rcases List.mem_cons.mp h with h' | h'
      · exact absurd h' hj
      · simpa [lookup_cons_ne (fut i) _ hj] using ih h'

/-! Unfolding lemmas for the message handler. -/

/-- When the frame is an object whose truthy id matches a pending entry
whose future is still pending, _on_message pops that entry and resolves
the future according to the success flag, recording one unlocked pop. -/
theorem onMessage_hit {st : CState} {data : Json} {rid : String} {fid : Nat}
    (hobj : data.isObj = true)
    (hid : objGet data "id" = some (.str rid)) (hrid : rid ≠ "")
    (hlk : List.lookup rid st.pendingMap = some fid)
    (hfut : st.futStore fid = .pending) :
    onMessage st (.ok data) =
      (resolvedState st rid fid data, none, [⟨.popRecv rid, false⟩]) := by
  cases data with
  | obj fields =>
    have hid' : List.lookup "id" fields = some (.str rid) := hid
    simp only [onMessage, onMessageBody, pyGet, hid', hlk, hfut,
      if_neg hrid, resolvedState]
  | null => simp [Json.isObj] at hobj
  | bool b => simp [Json.isObj] at hobj
  | num n => simp [Json.isObj] at hobj
  | str s => simp [Json.isObj] at hobj
  | arr l => simp [Json.isObj] at hobj

/-- _on_message never inserts: the pending map after the handler is
either unchanged or the erasure of one identifier. -/
theorem onMessage_pendingMap_cases (st : CState) (parsed : Except PyExc Json) :
    (onMessage st parsed).1.pendingMap = st.pendingMap ∨
    ∃ r, (onMessage st parsed).1.pendingMap = eraseAssoc r st.pendingMap := by
  cases parsed with
  | error e =>
    unfold onMessage
    simp only
    split <;> simp
  | ok data =>
    have hbody : (onMessageBody st data).1.pendingMap = st.pendingMap ∨
        ∃ r, (onMessageBody st data).1.pendingMap = eraseAssoc r st.pendingMap := by
      unfold onMessageBody
      rcases data with _ | b | n | s | l | fields
      · simp [pyGet]
      · simp [pyGet]
      · simp [pyGet]
      · simp [pyGet]
      · simp [pyGet]
      · rcases hcase : List.lookup "id" fields with _ | v
        · simp [pyGet, hcase]
        · rcases v with _ | b | n | s | l | l2
          · simp [pyGet, hcase]
          · simp [pyGet, hcase]
          · simp [pyGet, hcase]
          · rcases hlk : List.lookup s st.pendingMap with _ | fid
            · simp [pyGet, hcase, hlk]
            · by_cases hs : s = ""
              · subst hs
                simp [pyGet, hcase, hlk]
              · rcases hfut : st.futStore fid with _ | p | e
                · exact Or.inr ⟨s, by simp [pyGet, hcase, hlk, hs, hfut]⟩
                · exact Or.inr ⟨s, by simp [pyGet, hcase, hlk, hs, hfut]⟩
                · exact Or.inr ⟨s, by simp [pyGet, hcase, hlk, hs, hfut]⟩
          · simp [pyGet, hcase]
          · simp [pyGet, hcase]
    rcases hb : onMessageBody st data with ⟨st', exc, tr⟩
    rw [hb] at hbody
    cases exc with
    | none => simpa [onMessage, hb] using hbody
    | some e =>
      by_cases hc : isSubclass (classOf e) PyClass.jsonDecodeErrorC = true
      · simpa [onMessage, hb, hc] using hbody
      · simpa [onMessage, hb, hc] using hbody

/-! Claim theorems. -/

/-- C1: the claim says a request whose configured timeout elapses with no
matching response fails with the client's TimeoutError carrying the
timeout duration, with the entry removed from the pending set.  The code
contradicts this (and its own docstring and the intent of its handler):
future.result raises concurrent.futures.TimeoutError, which is not a
subclass of the basset_hound TimeoutError that the except clause — its
name shadowed by the import — refers to, so the handler never fires: the
foreign exception propagates with no timeout attribute and the pending
entry for the request id stays in the map.  Evaluated here on a
send_command with a 5-second timeout and no response. -/
theorem send_command_timeout_keeps_entry_and_raises_foreign_error :
    (sendCommandRun connSt "navigate" [] (some 5) "u-1" .timedOut).1
      = .error .futuresTimeoutError
  ∧ List.lookup "u-1"
      (sendCommandRun connSt "navigate" [] (some 5) "u-1" .timedOut).2.pendingMap
      = some 0
  ∧ isSubclass (classOf .futuresTimeoutError) .timeoutErrorC = false
  ∧ isSubclass (classOf .futuresTimeoutError) .bassetHoundErrorC = false :=
  ⟨rfl, rfl, rfl, rfl⟩

/-- C2 counterexample: an explicit disconnect (and likewise the closure
handler) leaves the outstanding PendingRequest for id "u" pending — its
result slot is not filled with a ConnectionError, contradicting the claim
that every teardown fails all outstanding requests. -/
theorem disconnect_does_not_fail_pending :
    (disconnectC pendSt).connected = false
  ∧ (disconnectC pendSt).pendingMap = [("u", 0)]
  ∧ (disconnectC pendSt).futStore 0 = .pending
  ∧ (onClose pendSt false).connected = false
  ∧ (onClose pendSt false).pendingMap = [("u", 0)]
  ∧ (onClose pendSt false).futStore 0 = .pending :=
  ⟨rfl, rfl, rfl, rfl, rfl, rfl⟩

/-- C2 amended: teardown by disconnect() or by the closure handler does
transition the client to Disconnected (when a transport exists, resp.
when auto-reconnect is off), but leaves the pending map and every
future untouched; outstanding requests are failed only by the
transport-error handler. -/
theorem teardown_disconnects_but_leaves_pending (st : CState) (rk : Bool) :
    (st.ws = true → (disconnectC st).connected = false)
  ∧ (disconnectC st).pendingMap = st.pendingMap
  ∧ (∀ n, (disconnectC st).futStore n = st.futStore n)
  ∧ (st.autoReconnect = false → (onClose st rk).connected = false)
  ∧ (onClose st rk).pendingMap = st.pendingMap
  ∧ (∀ n, (onClose st rk).futStore n = st.futStore n) := by
  refine ⟨fun h => ?_, ?_, fun n => ?_, fun h => ?_, ?_, fun n => ?_⟩
  · simp [disconnectC, h]
  · unfold disconnectC
    split <;> rfl
  · unfold disconnectC
    split <;> rfl
  · simp [onClose, h]
  · unfold onClose
    by_cases ha : st.autoReconnect <;> by_cases hr : rk <;> simp [ha, hr]
  · unfold onClose
    by_cases ha : st.autoReconnect <;> by_cases hr : rk <;> simp [ha, hr]

/-- C2 witness: the amended theorem applied to the pending-state example. -/
theorem teardown_disconnects_witness :
    (disconnectC pendSt).connected = false
  ∧ (onClose pendSt false).connected = false :=
  ⟨(teardown_disconnects_but_leaves_pending pendSt false).1 rfl,
   (teardown_disconnects_but_leaves_pending pendSt false).2.2.2.1 rfl⟩

/-- C4: the transport-error handler drains the pending set atomically in
one locked step: afterwards the map is empty, every future that a
pending entry pointed at and that was still unresolved holds a
ConnectionError built from the error text, futures already done are
untouched (resolved exactly once), and futures no entry pointed at are
untouched. -/
theorem on_error_drains_pending_exactly_once (st : CState) (errText : String) :
    (onError st errText).1.pendingMap = []
  ∧ (∀ p ∈ st.pendingMap, st.futStore p.2 = .pending →
      (onError st errText).1.futStore p.2
        = .doneErr (.bassetConnectionError errText))
  ∧ (∀ n, (st.futStore n).isDone = true →
      (onError st errText).1.futStore n = st.futStore n)
  ∧ (∀ n, (∀ p ∈ st.pendingMap, p.2 ≠ n) →
      (onError st errText).1.futStore n = st.futStore n)
  ∧ (onError st errText).2 = [⟨.drainClear, true⟩] := by
  refine ⟨rfl, ?_, ?_, ?_, rfl⟩
  · intro p hp hpend
    have hany : st.pendingMap.any (fun q => q.2 == p.2) = true :=
      List.any_eq_true.mpr ⟨p, hp, by simp⟩
    simp [onError, hany, hpend, FutState.isDone]
  · intro n hdone
    simp [onError, hdone]
  · intro n hnone
    have hany : st.pendingMap.any (fun q => q.2 == n) = false := by
      rw [List.any_eq_false]
      intro p hp
      simpa using hnone p hp
    simp [onError, hany]

/-- C4 witness: the drain applied to the client with outstanding id "u". -/
theorem on_error_drains_witness :
    (onError pendSt "boom").1.futStore 0
      = .doneErr (.bassetConnectionError "boom") :=
  (on_error_drains_pending_exactly_once pendSt "boom").2.1 ("u", 0)
    (by simp [pendSt]) rfl

/-- C6 counterexample: on the MCP variant, a send attempt while the
connection is down does not fail with a ConnectionError: send_command
silently connects first and, when the endpoint is reachable, sends the
envelope and succeeds. -/
theorem mcp_send_when_disconnected_autoconnects :
    (mcpSendCommand ⟨false, 0, []⟩ "get_title" []
        true (.frame (.obj [("id", .str "1")]))).1
      = .ok (.obj [("id", .str "1")])
  ∧ (mcpSendCommand ⟨false, 0, []⟩ "get_title" []
        true (.frame (.obj [("id", .str "1")]))).2.sentM
      = [.obj [("id", .str "1"), ("command", .str "get_title")]] :=
  ⟨rfl, rfl⟩

/-- C6 amended: in the synchronous client, a send attempt while not
Connected raises ConnectionError with the state untouched — no envelope
sent, no pending entry created, no map mutation; the MCP variant instead
connects on demand and raises a (builtin) ConnectionError only when that
connection attempt fails, in which case nothing is sent. -/
theorem send_while_disconnected_behavior (st : CState) (mst : McpState)
    (c : String) (ps : List (String × Json)) (tmo : Option ℚ) (rid : String)
    (w : WaitRes) (recv : RecvOutcome)
    (hc : st.connected = false) (hm : mst.ws = false) :
    sendCommandRun st c ps tmo rid w
      = (.error (.bassetConnectionError "Not connected to browser"), st)
  ∧ (sendCommandPre st c ps tmo rid).2 = []
  ∧ (mcpSendCommand mst c ps false recv).1
      = .error (.builtinConnectionError "Failed to connect to browser")
  ∧ (mcpSendCommand mst c ps false recv).2.sentM = mst.sentM := by
  refine ⟨?_, ?_, ?_, ?_⟩
  · simp [sendCommandRun, sendCommandPre, hc]
  · simp [sendCommandPre, hc]
  · simp [mcpSendCommand, hm]
  · simp [mcpSendCommand, hm]

/-- C6 witness: the amended theorem applied to the disconnected client
and an unreachable MCP endpoint. -/
theorem send_while_disconnected_witness :
    sendCommandRun discSt "navigate" [] none "u" .resolved
      = (.error (.bassetConnectionError "Not connected to browser"), discSt) :=
  (send_while_disconnected_behavior discSt ⟨false, 0, []⟩ "navigate" [] none
    "u" .resolved (.frame .null) rfl rfl).1

/-- C8: an inbound response whose identifier is not in the pending set is
discarded silently: the state is unchanged, no exception escapes the
handler, and no mutation of the map happens. -/
theorem unknown_id_response_discarded (st : CState) (data : Json)
    (rid : String) (hid : pyGet data "id" = .ok (some (.str rid)))
    (habs : List.lookup rid st.pendingMap = none) :
    onMessage st (.ok data) = (st, none, []) := by
  cases data with
  | obj fields =>
    have hid' : List.lookup "id" fields = some (.str rid) := by
      simpa [pyGet] using hid
    simp [onMessage, onMessageBody, pyGet, hid', habs]
  | null => simp [pyGet] at hid
  | bool b => simp [pyGet] at hid
  | num n => simp [pyGet] at hid
  | str s => simp [pyGet] at hid
  | arr l => simp [pyGet] at hid

/-- C8 witness: a response for the never-issued id "zz" delivered to the
client with outstanding id "u". -/
theorem unknown_id_response_witness :
    onMessage pendSt (.ok (.obj [("id", .str "zz")])) = (pendSt, none, []) :=
  unknown_id_response_discarded pendSt (.obj [("id", .str "zz")]) "zz" rfl rfl

/-- C9 counterexample: mutations of the pending map do not all run under
the guarding lock — the receive-path pop recorded by _on_message and the
send-path insertion recorded by send_command both carry underLock =
false, contradicting the claim; only the connection-loss drain locks. -/
theorem receive_and_send_paths_mutate_unlocked :
    (onMessage pendSt (.ok (.obj [("id", .str "u"), ("success", .bool true)]))).2.2
      = [⟨.popRecv "u", false⟩]
  ∧ (sendCommandPre connSt "navigate" [] none "u-1").2
      = [⟨.insert "u-1", false⟩] :=
  ⟨rfl, rfl⟩

/-- C9 amended: only the connection-loss drain mutates the identifier map
under the guarding lock; the send-path insertion, the receive-path pop
and the (dead) timeout-path pop all run without acquiring it, and
removing an identifier that is absent from the map is a no-op. -/
theorem only_drain_mutates_under_lock (st : CState)
    (parsed : Except PyExc Json) (errText c rid : String)
    (ps : List (String × Json)) (tmoArg : Option ℚ) (fid : Nat) (tmo : ℚ)
    (w : WaitRes) :
    (∀ e ∈ (onError st errText).2, e.underLock = true)
  ∧ (∀ e ∈ (onMessage st parsed).2.2, e.underLock = false)
  ∧ (∀ e ∈ (sendCommandPre st c ps tmoArg rid).2, e.underLock = false)
  ∧ (∀ e ∈ (sendCommandWait st c rid fid tmo w).2.2, e.underLock = false)
  ∧ (List.lookup rid st.pendingMap = none →
      eraseAssoc rid st.pendingMap = st.pendingMap) := by
  refine ⟨?_, ?_, ?_, ?_, eraseAssoc_of_lookup_none⟩
  · intro e he
    simp [onError] at he
    simp [he]
  · intro e he
    have : (onMessage st parsed).2.2 = []
        ∨ ∃ r, (onMessage st parsed).2.2 = [⟨.popRecv r, false⟩] := by
      cases parsed with
      | error e' => simp [onMessage]; split <;> simp
      | ok data =>
        have hbody : (onMessageBody st data).2.2 = []
            ∨ ∃ r, (onMessageBody st data).2.2 = [⟨.popRecv r, false⟩] := by
          unfold onMessageBody
          rcases data with _ | b | n | s | l | fields
          · simp [pyGet]
          · simp [pyGet]
          · simp [pyGet]
          · simp [pyGet]
          · simp [pyGet]
          · rcases hcase : List.lookup "id" fields with _ | v
            · simp [pyGet, hcase]
            · rcases v with _ | b | n | s | l | l2
              · simp [pyGet, hcase]
              · simp [pyGet, hcase]
              · simp [pyGet, hcase]
              · rcases hlk : List.lookup s st.pendingMap with _ | fid'
                · simp [pyGet, hcase, hlk]
                · by_cases hs : s = ""
                  · subst hs
                    simp [pyGet, hcase, hlk]
                  · rcases hfut : st.futStore fid' with _ | p | e'
                    · exact Or.inr ⟨s, by simp [pyGet, hcase, hlk, hs, hfut]⟩
                    · exact Or.inr ⟨s, by simp [pyGet, hcase, hlk, hs, hfut]⟩
                    · exact Or.inr ⟨s, by simp [pyGet, hcase, hlk, hs, hfut]⟩
              · simp [pyGet, hcase]
              · simp [pyGet, hcase]
        rcases hb : onMessageBody st data with ⟨st', exc, tr⟩
        rw [hb] at hbody
        cases exc with
        | none => simpa [onMessage, hb] using hbody
        | some e' =>
          by_cases hcc : isSubclass (classOf e') PyClass.jsonDecodeErrorC = true
          · simpa [onMessage, hb, hcc] using hbody
          · simpa [onMessage, hb, hcc] using hbody
    rcases this with h | ⟨r, h⟩
    · rw [h] at he
      cases he
    · rw [h] at he
      simp at he
      simp [he]
  · intro e he
    unfold sendCommandPre at he
    by_cases hc : st.connected
    · simp [hc] at he
      simp [he]
    · simp [hc] at he
  · intro e he
    have htr : (sendCommandWait st c rid fid tmo w).2.2 = []
        ∨ (sendCommandWait st c rid fid tmo w).2.2
            = [⟨.popTimeout rid, false⟩] := by
      unfold sendCommandWait
      cases w
      · rcases st.futStore fid with _ | p | e' <;> simp <;> split <;> simp
      · simp only
        split <;> simp
    rcases htr with h | h <;> rw [h] at he
    · cases he
    · simp at he
      simp [he]

/-- C9 witness: the amended theorem applied to the stale removal of an
unknown id and to a concrete drain. -/
theorem only_drain_mutates_witness :
    eraseAssoc "zz" pendSt.pendingMap = pendSt.pendingMap :=
  (only_drain_mutates_under_lock pendSt (.error .jsonDecodeError) "x" "c"
    "zz" [] none 0 30 .resolved).2.2.2.2 rfl

/-- C10: an inbound frame that is not valid JSON (json.loads raises
JSONDecodeError, which the handler catches) or that parses to an object
with no id field is discarded silently: the state is unchanged and no
exception escapes the handler. -/
theorem malformed_frames_discarded (st : CState)
    (fields : List (String × Json))
    (hid : List.lookup "id" fields = none) :
    onMessage st (.error .jsonDecodeError) = (st, none, [])
  ∧ onMessage st (.ok (.obj fields)) = (st, none, []) := by
  constructor
  · simp [onMessage, isSubclass, classOf, ancestorsAux, superClass]
  · simp [onMessage, onMessageBody, pyGet, hid]

/-- C10 witness: a frame that decodes to an object carrying only an x
field, delivered to the client with outstanding id "u". -/
theorem malformed_frames_witness :
    onMessage pendSt (.ok (.obj [("x", .num 1)])) = (pendSt, none, []) :=
  (malformed_frames_discarded pendSt [("x", .num 1)] rfl).2

/-- C5: for an inbound response matching a pending request, a truthy or
absent success field resolves the waiter with the whole response payload
(future.set_result(data), returned by future.result), while success equal
to false fails the waiter with a CommandError carrying the
remote-supplied error value and the full response dict verbatim as
details. -/
theorem response_resolution_success_and_failure (st : CState) (data : Json)
    (rid c : String) (fid : Nat) (tmo : ℚ)
    (hobj : data.isObj = true)
    (hid : objGet data "id" = some (.str rid)) (hrid : rid ≠ "")
    (hlk : List.lookup rid st.pendingMap = some fid)
    (hfut : st.futStore fid = .pending) :
    (successFlag data = true →
      (onMessage st (.ok data)).1.futStore fid = .doneOk data
      ∧ (sendCommandWait (onMessage st (.ok data)).1
          c rid fid tmo .resolved).1 = .ok data)
  ∧ (objGet data "success" = some (.bool false) →
      (onMessage st (.ok data)).1.futStore fid = .doneErr (commandFailure data)
      ∧ (sendCommandWait (onMessage st (.ok data)).1
          c rid fid tmo .resolved).1 = .error (commandFailure data))
  ∧ (∀ em, objGet data "error" = some em →
      commandFailure data = .commandError em data) := by
  have hhit := onMessage_hit hobj hid hrid hlk hfut
  refine ⟨fun hs => ?_, fun hs => ?_, fun em he => ?_⟩
  · rw [hhit]
    exact ⟨by simp [resolvedState, hs], by simp [sendCommandWait, resolvedState, hs]⟩
  · have hsf : successFlag data = false := by
      simp [successFlag, hs, Json.truthy]
    rw [hhit]
    refine ⟨by simp [resolvedState, hsf], ?_⟩
    simp [sendCommandWait, resolvedState, hsf, commandFailure, classOf,
      isSubclass, ancestorsAux, superClass]
  · simp [commandFailure, he]

/-- C5 witness: a success response and a failure response for the
outstanding id "u". -/
theorem response_resolution_witness :
    (onMessage pendSt
        (.ok (.obj [("id", .str "u"), ("result", .str "fine")]))).1.futStore 0
      = .doneOk (.obj [("id", .str "u"), ("result", .str "fine")])
  ∧ (onMessage pendSt
        (.ok (.obj [("id", .str "u"), ("success", .bool false),
          ("error", .str "nope")]))).1.futStore 0
      = .doneErr (commandFailure
          (.obj [("id", .str "u"), ("success", .bool false),
            ("error", .str "nope")])) :=
  ⟨((response_resolution_success_and_failure pendSt
      (.obj [("id", .str "u"), ("result", .str "fine")]) "u" "navigate" 0 30
      rfl rfl (by decide) rfl rfl).1 rfl).1,
   ((response_resolution_success_and_failure pendSt
      (.obj [("id", .str "u"), ("success", .bool false),
        ("error", .str "nope")]) "u" "navigate" 0 30
      rfl rfl (by decide) rfl rfl).2.1 rfl).1⟩

/-- C7 counterexample: the dispatch path performs no freshness check on
the drawn identifier: a send_command for which uuid4 yields the already
outstanding id "u" is accepted, and the dict assignment replaces the old
entry while its future (index 0) is still unresolved — the generated
identifier was not distinct from every outstanding one. -/
theorem dispatch_accepts_colliding_identifier :
    "u" ∈ pendSt.pendingMap.map Prod.fst
  ∧ (sendCommandPre pendSt "navigate" [] none "u").1.isOk = true
  ∧ (afterPre pendSt "navigate" [] none "u").pendingMap = [("u", 1)]
  ∧ (afterPre pendSt "navigate" [] none "u").futStore 0 = .pending
  ∧ pendSt.futStore 0 = .pending :=
  ⟨by simp [pendSt], rfl, rfl, rfl, rfl⟩

/-- C7 amended: the pending map always holds at most one entry per
identifier — distinctness of its keys is preserved by the insertion on
the send path, by the message handler and by the drain — but dispatch
does not enforce freshness of the drawn identifier: sending with any
identifier, colliding or not, installs its fresh future index, silently
replacing an outstanding entry of the same identifier. -/
theorem pending_map_keys_stay_distinct (st : CState) (c : String)
    (ps : List (String × Json)) (tmoArg : Option ℚ) (rid : String)
    (parsed : Except PyExc Json) (errText : String)
    (h : (st.pendingMap.map Prod.fst).Nodup) :
    ((afterPre st c ps tmoArg rid).pendingMap.map Prod.fst).Nodup
  ∧ ((onMessage st parsed).1.pendingMap.map Prod.fst).Nodup
  ∧ ((onError st errText).1.pendingMap.map Prod.fst).Nodup
  ∧ (st.connected = true →
      List.lookup rid (afterPre st c ps tmoArg rid).pendingMap
        = some st.nextFut) := by
  refine ⟨?_, ?_, ?_, fun hc => ?_⟩
  · unfold afterPre sendCommandPre
    by_cases hcon : st.connected = true
    · simp only [hcon, Bool.not_true, Bool.false_eq_true, if_false]
      exact keys_nodup_insertAssoc h
    · have hcon' : st.connected = false := by
        revert hcon
        cases st.connected <;> simp
      simp only [hcon', Bool.not_false, if_true]
      exact h
  · rcases onMessage_pendingMap_cases st parsed with hcase | ⟨r, hcase⟩
    · rw [hcase]
      exact h
    · rw [hcase]
      exact keys_nodup_eraseAssoc h
  · simp [onError]
  · unfold afterPre sendCommandPre
    simp only [hc, Bool.not_true, Bool.false_eq_true, if_false]
    exact lookup_insertAssoc_self

/-- C7 witness: the amended theorem applied to the colliding dispatch on
the client with outstanding id "u". -/
theorem pending_map_keys_witness :
    List.lookup "u" (afterPre pendSt "navigate" [] none "u").pendingMap
      = some 1 :=
  (pending_map_keys_stay_distinct pendSt "navigate" [] none "u"
    (.error .jsonDecodeError) "x" (by simp [pendSt])).2.2.2 rfl

/-- Order-insensitive correlation: delivering one well-formed matching
response per outstanding identifier, identifiers distinct and future
indices injective, resolves exactly the right future at each step and
leaves everything else alone. -/
theorem processAll_resolves (fut : String → Nat) (resp : String → Json) :
    ∀ (order : List String) (s : CState),
    order.Nodup →
    (∀ a ∈ order, ∀ b ∈ order, fut a = fut b → a = b) →
    (∀ j ∈ order, List.lookup j s.pendingMap = some (fut j)) →
    (∀ j ∈ order, s.futStore (fut j) = .pending) →
    (∀ j ∈ order, WellFormedResp (resp j) j) →
    (s.pendingMap.map Prod.fst).Nodup →
    (∀ j ∈ order,
        (processAll s (order.map resp)).futStore (fut j) = .doneOk (resp j))
  ∧ (∀ j ∈ order,
        List.lookup j (processAll s (order.map resp)).pendingMap = none)
  ∧ (∀ n, (∀ j ∈ order, n ≠ fut j) →
        (processAll s (order.map resp)).futStore n = s.futStore n)
  ∧ (∀ k, k ∉ order →
        List.lookup k (processAll s (order.map resp)).pendingMap
          = List.lookup k s.pendingMap) := by
  intro order
  induction order with
  | nil =>
    intro s _ _ _ _ _ _
    simp [processAll]
  | cons i rest ih =>
    intro s hnd hinj hlk hfs hwf hkeys
    obtain ⟨hobj, hid, hne, hsucc⟩ := hwf i (by simp)
    have hlki : List.lookup i s.pendingMap = some (fut i) := hlk i (by simp)
    have hfi : s.futStore (fut i) = .pending := hfs i (by simp)
    have hnotmem : i ∉ rest := (List.nodup_cons.mp hnd).1
    have h1 : (onMessage s (.ok (resp i))).1
        = resolvedState s i (fut i) (resp i) := by
      rw [onMessage_hit hobj hid hne hlki hfi]
    have hps : processAll s ((i :: rest).map resp)
        = processAll (resolvedState s i (fut i) (resp i)) (rest.map resp) := by
      simp only [List.map_cons, processAll, List.foldl_cons]
      rw [h1]
    have hrest_ne : ∀ j ∈ rest, j ≠ i := fun j hj hji => hnotmem (hji ▸ hj)
    have hfut_ne : ∀ j ∈ rest, fut j ≠ fut i := fun j hj hf =>
      hrest_ne j hj (hinj j (by simp [hj]) i (by simp) hf)
    obtain ⟨ihA, ihB, ihC, ihD⟩ :=
      ih (resolvedState s i (fut i) (resp i)) (List.nodup_cons.mp hnd).2
      (fun a ha b hb => hinj a (by simp [ha]) b (by simp [hb]))
      (fun j hj => by
        simp only [resolvedState]
        rw [lookup_eraseAssoc_ne (hrest_ne j hj)]
        exact hlk j (by simp [hj]))
      (fun j hj => by
        simp only [resolvedState, if_neg (hfut_ne j hj)]
        exact hfs j (by simp [hj]))
      (fun j hj => hwf j (by simp [hj]))
      (by
        simp only [resolvedState]
        exact keys_nodup_eraseAssoc hkeys)
    refine ⟨?_, ?_, ?_, ?_⟩
    · intro j hj
      rcases List.mem_cons.mp hj with hji | hjr
      · subst hji
        rw [hps, ihC (fut j) (fun j' hj' => (hfut_ne j' hj').symm)]
        simp [resolvedState, hsucc]
      · rw [hps]
        exact ihA j hjr
    · intro j hj
      rcases List.mem_cons.mp hj with hji | hjr
      · subst hji
        rw [hps, ihD j hnotmem]
        simp only [resolvedState]
        exact lookup_eraseAssoc_self hkeys
      · rw [hps]
        exact ihB j hjr
    · intro n hn
      rw [hps, ihC n (fun j hj => hn j (by simp [hj]))]
      simp only [resolvedState]
      exact if_neg (hn i (by simp))
    · intro k hk
      have hki : k ≠ i := fun h => hk (by simp [h])
      have hkr : k ∉ rest := fun h => hk (by simp [h])
      rw [hps, ihD k hkr]
      simp only [resolvedState]
      exact lookup_eraseAssoc_ne hki

/-- C3: with N distinct requests outstanding concurrently, delivering
one matching response per identifier in any order resolves each issuing
call's future with exactly the response carrying its own identifier — N
successful resolutions, each matched to its own issuer — and evicts all
N identifiers from the pending set. -/
theorem concurrent_responses_resolve_their_own_issuers
    (ids order : List String) (fut : String → Nat) (resp : String → Json)
    (s : CState)
    (hperm : order.Perm ids) (hnd : ids.Nodup)
    (hinj : ∀ a ∈ ids, ∀ b ∈ ids, fut a = fut b → a = b)
    (hwf : ∀ j ∈ ids, WellFormedResp (resp j) j)
    (hmap : s.pendingMap = ids.map (fun i => (i, fut i)))
    (hpend : ∀ n, s.futStore n = .pending) :
    (∀ j ∈ ids,
        (processAll s (order.map resp)).futStore (fut j) = .doneOk (resp j))
  ∧ (∀ j ∈ ids,
        List.lookup j (processAll s (order.map resp)).pendingMap = none) := by
  have hmem : ∀ x : String, x ∈ order ↔ x ∈ ids := fun x => hperm.mem_iff
  have hndo : order.Nodup := hperm.nodup_iff.mpr hnd
  have hkeys : (s.pendingMap.map Prod.fst).Nodup := by
    rw [hmap, List.map_map]
    have hcomp : (Prod.fst ∘ fun i : String => (i, fut i)) = fun i => i := rfl
    rw [hcomp, List.map_id']
    exact hnd
  obtain ⟨hA, hB, _, _⟩ := processAll_resolves fut resp order s hndo
    (fun a ha b hb => hinj a ((hmem a).mp ha) b ((hmem b).mp hb))
    (fun j hj => by
      rw [hmap]
      exact lookup_map_pair ((hmem j).mp hj))
    (fun j _ => hpend (fut j))
    (fun j hj => hwf j ((hmem j).mp hj))
    hkeys
  exact ⟨fun j hj => hA j ((hmem j).mpr hj),
         fun j hj => hB j ((hmem j).mpr hj)⟩

/-- C3 witness: the two outstanding requests "a" and "b" answered in
reversed order each receive their own response, and both identifiers are
evicted. -/
theorem concurrent_responses_witness :
    (processAll twoPendSt (["b", "a"].map exResp)).futStore (exFut "a")
      = .doneOk (exResp "a")
  ∧ List.lookup "b"
      (processAll twoPendSt (["b", "a"].map exResp)).pendingMap = none := by
  have h := concurrent_responses_resolve_their_own_issuers ["a", "b"]
    ["b", "a"] exFut exResp twoPendSt (List.Perm.swap "a" "b" [])
    (by decide) (by decide)
    (by
      intro j hj
      fin_cases hj <;> exact ⟨rfl, rfl, by decide, rfl⟩)
    rfl (fun _ => rfl)
  exact ⟨h.1 "a" (by simp), h.2 "b" (by simp)⟩
